import Mathlib

/-!
# Event store service: request validation, routing and persistence mapping

A shallow embedding of `main.go`.  Go strings are byte sequences, so `len` is a
byte count; handlers are functions from a request and a store state to a
response, the list of statements issued to the store, and the new store state.
The database, the JSON decoder, `uuid.Parse`, `uuid.New` and `time.Now` are
collaborators outside the source and appear as parameters.  The JSON encoder is
modelled where the handlers depend on it: a nil slice is written as null, a time
whose year or zone hour is out of range makes the whole encoding fail, bytes
that are not well-formed UTF-8 are written as U+FFFD, and the handlers drop the
error of `Encode`, so a failed encoding leaves the body empty.
-/

namespace EventsTech

/-! ## Data model -/

/-- A Go `string`: an immutable sequence of bytes. -/
abbrev GoString := List UInt8

/-- The Go builtin `len` on a string: the number of bytes. -/
def len (s : GoString) : Nat := s.length

/-- The bytes of a sequence of Unicode code points, UTF-8 encoded: how a Go
string holds text. -/
def utf8 (cs : List Char) : GoString := cs.flatMap String.utf8EncodeChar

/-- A `time.Time` without monotonic reading: the instant as seconds since
1970-01-01T00:00:00Z and nanoseconds within the second, and the offset east of
UTC, in seconds, of the location the time is presented in. -/
structure Time where
  sec : Int
  nsec : Nat
  offset : Int
  deriving DecidableEq, Repr

/-- The method `Time.After`: the instant `t` is strictly later than the instant
`u`; the locations play no part. -/
def Time.After (t u : Time) : Bool :=
  decide (t.sec > u.sec) || (decide (t.sec = u.sec) && decide (t.nsec > u.nsec))

/-- The seconds on the wall clock of the location of `t`. -/
def Time.wallSec (t : Time) : Int := t.sec + t.offset

/-- Whether `t.Year()` lies in `[0, 9999]`: the wall clock is not before
0000-01-01T00:00:00 and is before 10000-01-01T00:00:00. -/
def Time.yearInRange (t : Time) : Bool :=
  decide (-62167219200 ≤ t.wallSec) && decide (t.wallSec < 253402300800)

/-- Whether the hour of the zone offset of `t` lies in `[0, 23]`. -/
def Time.zoneInRange (t : Time) : Bool :=
  decide (t.offset.natAbs / 60 / 60 < 24)

/-- Whether `Time.MarshalJSON` succeeds on `t`: it refuses a year outside
`[0, 9999]` and a zone hour outside `[0, 23]`. -/
def Time.encodable (t : Time) : Bool := t.yearInRange && t.zoneInRange

/-- The method `Time.UTC`: the same instant presented in UTC. -/
def Time.UTC (t : Time) : Time := { t with offset := 0 }

/-- A `uuid.UUID`: 128 bits. -/
structure UUID where
  val : Fin (2 ^ 128)
  deriving DecidableEq, Repr

/-- The struct `Event`. -/
structure Event where
  ID : UUID
  Title : GoString
  Description : GoString
  StartTime : Time
  EndTime : Time
  CreatedAt : Time
  deriving DecidableEq, Repr

/-- Whether the three times of an event can be encoded. -/
def Event.encodable (e : Event) : Bool :=
  e.StartTime.encodable && e.EndTime.encodable && e.CreatedAt.encodable

/-! ## Validator -/

/-- The function `validateInput`; `none` is the nil error, `some msg` is
`errors.New(msg)`. -/
def validateInput (title : GoString) (startTime endTime : Time) : Option String :=
  if title = [] then
    some "title is required"
  else if len title > 100 then
    some "title too long"
  else if startTime.After endTime then
    some "start time must be before end time"
  else
    none

/-- The outcome of validation as the specification names it. -/
inductive Verdict where
  | ok
  | titleRequired
  | titleTooLong
  | startBeforeEnd
  deriving DecidableEq, Repr

/-- The reference definition of the validator, following the specification:
rules checked in order, first failure wins. -/
def validateRef (title : GoString) (startTime endTime : Time) : Verdict :=
  if len title = 0 then Verdict.titleRequired
  else if 100 < len title then Verdict.titleTooLong
  else if startTime.After endTime then Verdict.startBeforeEnd
  else Verdict.ok

/-- The error value that `validateInput` uses for each verdict. -/
def Verdict.toError : Verdict → Option String
  | Verdict.ok => none
  | Verdict.titleRequired => some "title is required"
  | Verdict.titleTooLong => some "title too long"
  | Verdict.startBeforeEnd => some "start time must be before end time"

/-! ## HTTP and store model -/

/-- A JSON value as `encoding/json` writes it.  A string is the sequence of
its code points; the leaves `uuid` and `time` stand for the JSON strings holding
the text form of a `uuid.UUID` and of a `time.Time`. -/
inductive JSON where
  | null
  | str (s : List Char)
  | uuid (u : UUID)
  | time (t : Time)
  | arr (xs : List JSON)
  | obj (fields : List (String × JSON))

/-- A Go slice value: `none` is the nil slice, `some xs` a non-nil slice with
elements `xs`. -/
abbrev Slice (α : Type) := Option (List α)

/-- The Go builtin `append` of one element. -/
def Slice.append {α : Type} (s : Slice α) (a : α) : Slice α :=
  match s with
  | none => some [a]
  | some xs => some (xs ++ [a])

/-- Whether the byte `b` lies in `[lo, hi]`. -/
def inRange (b : UInt8) (lo hi : Nat) : Bool := decide (lo ≤ b.toNat) && decide (b.toNat ≤ hi)

/-- The function `utf8.DecodeRuneInString` where it succeeds: the code point a
well-formed UTF-8 sequence at the head of `s` encodes and its width in bytes;
`none` where the head is not well formed (a stray continuation byte, a short
or overlong sequence, a surrogate, a value above U+10FFFF). -/
def decodeRune : GoString → Option (Char × Nat)
  | [] => none
  | b0 :: rest =>
    let x := b0.toNat
    if x < 0x80 then some (Char.ofNat x, 1)
    else if 0xC2 ≤ x ∧ x ≤ 0xDF then
      match rest with
      | b1 :: _ =>
        if inRange b1 0x80 0xBF then
          some (Char.ofNat (x % 0x20 * 0x40 + b1.toNat % 0x40), 2)
        else none
      | _ => none
    else if 0xE0 ≤ x ∧ x ≤ 0xEF then
      match rest with
      | b1 :: b2 :: _ =>
        if inRange b1 (if x = 0xE0 then 0xA0 else 0x80) (if x = 0xED then 0x9F else 0xBF)
            && inRange b2 0x80 0xBF then
          some (Char.ofNat (x % 0x10 * 0x1000 + b1.toNat % 0x40 * 0x40 + b2.toNat % 0x40), 3)
        else none
      | _ => none
    else if 0xF0 ≤ x ∧ x ≤ 0xF4 then
      match rest with
      | b1 :: b2 :: b3 :: _ =>
        if inRange b1 (if x = 0xF0 then 0x90 else 0x80) (if x = 0xF4 then 0x8F else 0xBF)
            && inRange b2 0x80 0xBF && inRange b3 0x80 0xBF then
          some (Char.ofNat (x % 0x08 * 0x40000 + b1.toNat % 0x40 * 0x1000
            + b2.toNat % 0x40 * 0x40 + b3.toNat % 0x40), 4)
        else none
      | _ => none
    else none

/-- The text of a Go string after skipping `k` bytes: each well-formed sequence
gives its code point, each other byte gives U+FFFD. -/
def toValidUTF8Aux : Nat → GoString → List Char
  | _, [] => []
  | k + 1, _ :: bs => toValidUTF8Aux k bs
  | 0, b :: bs =>
    match decodeRune (b :: bs) with
    | some (c, w) => c :: toValidUTF8Aux (w - 1) bs
    | none => Char.ofNat 0xFFFD :: toValidUTF8Aux 0 bs

/-- The JSON string `encoding/json` writes for a Go string: its code points,
with every byte that is not part of well-formed UTF-8 replaced by U+FFFD. -/
def toValidUTF8 (s : GoString) : List Char := toValidUTF8Aux 0 s

/-- The JSON object of an `Event`: one member per field, keyed by the field
tags of the struct (the tag `"description, omitempty"` names the key
`description` and carries no recognised option). -/
def eventJSON (e : Event) : JSON :=
  JSON.obj [("id", JSON.uuid e.ID), ("title", JSON.str (toValidUTF8 e.Title)),
    ("description", JSON.str (toValidUTF8 e.Description)),
    ("start_time", JSON.time e.StartTime), ("end_time", JSON.time e.EndTime),
    ("created_at", JSON.time e.CreatedAt)]

/-- What `json.Marshal` gives for an `Event`: the object, or the error `none`
when one of its times cannot be encoded. -/
def marshalEvent (e : Event) : Option JSON :=
  if e.encodable then some (eventJSON e) else none

/-- What `json.Marshal` gives for a `[]Event`: a nil slice encodes as the JSON
value null, any other slice as a JSON array, and the whole encoding is the error
`none` when one element cannot be encoded. -/
def marshalEvents (s : Slice Event) : Option JSON :=
  match s with
  | none => some JSON.null
  | some xs => if xs.all Event.encodable then some (JSON.arr (xs.map eventJSON)) else none

/-- The body of a response: the plain text written by `http.Error`, an encoded
JSON value, or nothing. -/
inductive Body where
  | text (msg : String)
  | json (v : JSON)
  | empty

/-- What a handler wrote to its `http.ResponseWriter`. -/
structure Response where
  status : Nat
  body : Body

/-- The call `http.Error(w, msg, code)`. -/
def httpError (msg : String) (code : Nat) : Response :=
  { status := code, body := Body.text msg }

/-- The statement `json.NewEncoder(w).Encode(v)` with its error dropped: the
encoder writes the value it marshalled, and writes nothing when marshalling
fails. -/
def encodeBody (v : Option JSON) : Body :=
  match v with
  | some j => Body.json j
  | none => Body.empty

/-- The fields of an `*http.Request` the handlers read. -/
structure Request where
  Method : String
  Path : GoString
  Body : GoString

/-- The anonymous struct `in` that `createEvent` decodes the body into. -/
structure CreateInput where
  Title : GoString
  Description : GoString
  StartTime : Time
  EndTime : Time

/-- An error value returned by `database/sql`: `sql.ErrNoRows`, or any other
error, identified by its message. -/
inductive DbError where
  | errNoRows
  | other (msg : String)
  deriving DecidableEq, Repr

/-- The test `errors.Is(err, sql.ErrNoRows)` on a non-nil error. -/
def DbError.isNoRows : DbError → Bool
  | DbError.errNoRows => true
  | DbError.other _ => false

/-- A `*sql.Rows` cursor as the loop of `listEvents` sees it: one entry per row
for which `rows.Next()` returns true, holding what `rows.Scan` gives on it, and
`err`, the value of `rows.Err()` once `rows.Next()` has returned false. -/
structure Rows where
  items : List (Except DbError Event)
  err : Option DbError

/-- A statement issued to the store. -/
inductive Stmt where
  | insert (e : Event)
  | selectAll
  | selectByID (id : UUID)
  deriving DecidableEq, Repr

/-- The store behind `db`, with state `σ`: what each of the three statements
of the source answers in a state, and the state it leaves. -/
structure Backend (σ : Type) where
  insertReturning : σ → Event → Except DbError Event × σ
  selectAll : σ → Except DbError Rows × σ
  selectByID : σ → UUID → Except DbError Event × σ

/-- The collaborators of a request other than the store: the JSON decoding of a
body into the input struct, `uuid.Parse`, and the values `uuid.New()` and
`time.Now()` return during the request. -/
structure Env where
  jsonDecode : GoString → Option CreateInput
  uuidParse : GoString → Option UUID
  uuidNew : UUID
  timeNow : Time

/-- What running a handler gives: the response, the statements issued to the
store in order, and the store state afterwards. -/
structure Result (σ : Type) where
  resp : Response
  stmts : List Stmt
  st : σ

/-! ## Handlers -/

/-- The struct literal `e` of `createEvent`: the input fields with a new id
and the current time. -/
def newEvent (env : Env) (inp : CreateInput) : Event :=
  { ID := env.uuidNew, Title := inp.Title, Description := inp.Description,
    StartTime := inp.StartTime, EndTime := inp.EndTime, CreatedAt := env.timeNow }

/-- The function `createEvent`. -/
def createEvent {σ : Type} (env : Env) (B : Backend σ) (s : σ) (r : Request) : Result σ :=
  match env.jsonDecode r.Body with
  | none => { resp := httpError "Invalid JSON" 400, stmts := [], st := s }
  | some inp =>
    match validateInput inp.Title inp.StartTime inp.EndTime with
    | some _ => { resp := httpError "invalid json" 400, stmts := [], st := s }
    | none =>
      let e : Event := newEvent env inp
      match B.insertReturning s e with
      | (Except.error _, s1) =>
        { resp := httpError "Error inserting event" 500, stmts := [Stmt.insert e], st := s1 }
      | (Except.ok row, s1) =>
        { resp := { status := 201, body := encodeBody (marshalEvent row) },
          stmts := [Stmt.insert e], st := s1 }

/-- The loop `for rows.Next()` of `listEvents`: scans each row into the slice
`events`; a scan error ends the handler with the 500 response. -/
def scanRows : List (Except DbError Event) → Slice Event → Except Response (Slice Event)
  | [], events => Except.ok events
  | Except.error _ :: _, _ => Except.error (httpError "Error scanning event" 500)
  | Except.ok e :: rest, events => scanRows rest (events.append e)

/-- The function `listEvents`.  The slice `events` starts as the nil slice
(`var events []Event`); `rows.Err()` is not read. -/
def listEvents {σ : Type} (B : Backend σ) (s : σ) (_r : Request) : Result σ :=
  match B.selectAll s with
  | (Except.error _, s1) =>
    { resp := httpError "Error fetching events" 500, stmts := [Stmt.selectAll], st := s1 }
  | (Except.ok rows, s1) =>
    match scanRows rows.items none with
    | Except.error resp => { resp := resp, stmts := [Stmt.selectAll], st := s1 }
    | Except.ok events =>
      { resp := { status := 200, body := encodeBody (marshalEvents events) },
        stmts := [Stmt.selectAll], st := s1 }

/-- The function `getEventByID`. -/
def getEventByID {σ : Type} (B : Backend σ) (s : σ) (_r : Request) (id : UUID) : Result σ :=
  match B.selectByID s id with
  | (Except.error err, s1) =>
    if err.isNoRows then
      { resp := httpError "Event not found" 404, stmts := [Stmt.selectByID id], st := s1 }
    else
      { resp := httpError "db Error" 500, stmts := [Stmt.selectByID id], st := s1 }
  | (Except.ok e, s1) =>
    { resp := { status := 200, body := encodeBody (marshalEvent e) },
      stmts := [Stmt.selectByID id], st := s1 }

/-- The function `eventsHandler`. -/
def eventsHandler {σ : Type} (env : Env) (B : Backend σ) (s : σ) (r : Request) : Result σ :=
  if r.Method = "GET" then listEvents B s r
  else if r.Method = "POST" then createEvent env B s r
  else { resp := httpError "Method not allowed" 405, stmts := [], st := s }

/-- The function `eventsByIdHandler`; `none` is the run-time panic of the slice
expression `r.URL.Path[len("/events/"):]` on a path shorter than 8 bytes. -/
def eventsByIdHandler {σ : Type} (env : Env) (B : Backend σ) (s : σ) (r : Request) :
    Option (Result σ) :=
  if r.Method ≠ "GET" then
    some { resp := httpError "Method not allowed" 405, stmts := [], st := s }
  else if len r.Path < 8 then
    none
  else
    let idStr := r.Path.drop 8
    match env.uuidParse idStr with
    | none => some { resp := httpError "Invalid event ID" 400, stmts := [], st := s }
    | some id => some (getEventByID B s r id)

/-! ## A store held in memory -/

/-- Insertion of a row into a list kept in ascending `start_time` order, after
the rows that do not start later. -/
def insertByStart (e : Event) : List Event → List Event
  | [] => [e]
  | x :: xs => if x.StartTime.After e.StartTime then e :: x :: xs else x :: insertByStart e xs

/-- The rows of a table in ascending `start_time` order. -/
def sortByStart : List Event → List Event
  | [] => []
  | x :: xs => insertByStart x (sortByStart xs)

/-- A row as a table with `timestamptz` columns gives it back to a session in
UTC: the same instants, presented in UTC. -/
def Event.stored (e : Event) : Event :=
  { e with StartTime := e.StartTime.UTC, EndTime := e.EndTime.UTC,
           CreatedAt := e.CreatedAt.UTC }

/-- A store that keeps the table `events` as a list of rows and never fails
except as the schema demands: the insert refuses a second row with the same
primary key and returns the row as stored, the listing answers in ascending
`start_time` order, and the lookup reports `sql.ErrNoRows` when no row has the
id. -/
def memBackend : Backend (List Event) where
  insertReturning rows e :=
    if rows.any (fun x => decide (x.ID = e.ID)) then
      (Except.error (DbError.other "duplicate key"), rows)
    else (Except.ok e.stored, rows ++ [e.stored])
  selectAll rows := (Except.ok { items := (sortByStart rows).map Except.ok, err := none }, rows)
  selectByID rows id :=
    match rows.find? (fun x => decide (x.ID = id)) with
    | some e => (Except.ok e, rows)
    | none => (Except.error DbError.errNoRows, rows)

/-- A store whose connection breaks during the listing: the cursor yields the
first row of the table and then stops with an error. -/
def flakyBackend : Backend (List Event) where
  insertReturning rows e := (Except.ok e, rows ++ [e])
  selectAll rows :=
    (Except.ok { items := (rows.take 1).map Except.ok,
                 err := some (DbError.other "connection reset") }, rows)
  selectByID rows id :=
    match rows.find? (fun x => decide (x.ID = id)) with
    | some e => (Except.ok e, rows)
    | none => (Except.error DbError.errNoRows, rows)

/-- An environment for examples: the body decodes to an input whose title and
description are the body itself when the body is not empty, and an id segment
parses when it has 36 bytes. -/
def sampleEnv : Env where
  jsonDecode b :=
    if b = [] then none
    else some { Title := b, Description := b, StartTime := ⟨0, 0, 0⟩, EndTime := ⟨60, 0, 0⟩ }
  uuidParse seg := if len seg = 36 then some ⟨⟨7, by decide⟩⟩ else none
  uuidNew := ⟨⟨1, by decide⟩⟩
  timeNow := ⟨100, 0, 0⟩

/-- The time 9999-12-31T23:59:59-01:00. -/
def lastSecond : Time := { sec := 253402304399, nsec := 0, offset := -3600 }

/-- An environment for examples in which every body decodes to the one-byte
title "a" with start and end at 9999-12-31T23:59:59-01:00. -/
def edgeEnv : Env where
  jsonDecode _ :=
    some { Title := [97], Description := [], StartTime := lastSecond, EndTime := lastSecond }
  uuidParse seg := if len seg = 36 then some ⟨⟨9, by decide⟩⟩ else none
  uuidNew := ⟨⟨9, by decide⟩⟩
  timeNow := ⟨100, 0, 0⟩

/-- The row the store holds after that input is created: the same instant in
UTC, 10000-01-01T00:59:59Z. -/
def edgeEvent : Event :=
  { ID := ⟨⟨9, by decide⟩⟩, Title := [97], Description := [],
    StartTime := ⟨253402304399, 0, 0⟩, EndTime := ⟨253402304399, 0, 0⟩,
    CreatedAt := ⟨100, 0, 0⟩ }

/-- A stored row whose title is the single byte `b`. -/
def byteTitleEvent (b : UInt8) : Event :=
  { ID := ⟨⟨5, by decide⟩⟩, Title := [b], Description := [],
    StartTime := ⟨0, 0, 0⟩, EndTime := ⟨60, 0, 0⟩, CreatedAt := ⟨0, 0, 0⟩ }

/-- The path bytes "/events/". -/
def eventsSlash : GoString := [47, 101, 118, 101, 110, 116, 115, 47]

/-- A sample stored row. -/
def sampleEvent (id : Nat) (start : Int) : Event :=
  { ID := ⟨Fin.ofNat id⟩, Title := [97], Description := [],
    StartTime := ⟨start, 0, 0⟩, EndTime := ⟨start + 60, 0, 0⟩, CreatedAt := ⟨0, 0, 0⟩ }

/-! ## Lemmas on the data model -/

theorem len_eq_zero_iff (s : GoString) : len s = 0 ↔ s = [] := by
  simp [len]

theorem Time.After_self (t : Time) : t.After t = false := by
  simp [Time.After]

theorem len_utf8_cons (c : Char) (cs : List Char) :
    len (utf8 (c :: cs)) = c.utf8Size + len (utf8 cs) := by
  simp [len, utf8, List.flatMap_cons]

theorem len_utf8_replicate (n : Nat) (c : Char) :
    len (utf8 (List.replicate n c)) = n * c.utf8Size := by
  induction n with
  | zero => simp [len, utf8]
  | succ k ih =>
    rw [List.replicate_succ, len_utf8_cons, ih]
    ring

theorem validateInput_of_len (title : GoString) (s e : Time)
    (h1 : 1 ≤ len title) (h2 : len title ≤ 100) (h3 : s.After e = false) :
    validateInput title s e = none := by
  have hne : title ≠ [] := by
    intro h
    rw [h] at h1
    simp [len] at h1
  have hle : ¬ len title > 100 := by omega
  simp [validateInput, hne, hle, h3]

theorem validateInput_of_long (title : GoString) (s e : Time)
    (h : len title > 100) : validateInput title s e = some "title too long" := by
  have hne : title ≠ [] := by
    intro h0
    rw [h0] at h
    simp [len] at h
  unfold validateInput
  rw [if_neg hne, if_pos h]

/-! ## The JSON text of a Go string -/

theorem shr_toNat6 (v : UInt32) : (v >>> 6).toNat = v.toNat / 64 := by
  show (v.toBitVec >>> (UInt32.mod 6 32).toBitVec).toNat = _
  have h : (UInt32.mod 6 32).toBitVec.toNat = 6 := by decide
  rw [BitVec.ushiftRight_eq', BitVec.toNat_ushiftRight, h, Nat.shiftRight_eq_div_pow]
  rfl

theorem shr_toNat12 (v : UInt32) : (v >>> 12).toNat = v.toNat / 4096 := by
  show (v.toBitVec >>> (UInt32.mod 12 32).toBitVec).toNat = _
  have h : (UInt32.mod 12 32).toBitVec.toNat = 12 := by decide
  rw [BitVec.ushiftRight_eq', BitVec.toNat_ushiftRight, h, Nat.shiftRight_eq_div_pow]
  rfl

theorem shr_toNat18 (v : UInt32) : (v >>> 18).toNat = v.toNat / 262144 := by
  show (v.toBitVec >>> (UInt32.mod 18 32).toBitVec).toNat = _
  have h : (UInt32.mod 18 32).toBitVec.toNat = 18 := by decide
  rw [BitVec.ushiftRight_eq', BitVec.toNat_ushiftRight, h, Nat.shiftRight_eq_div_pow]
  rfl

theorem toUInt8_toNat (v : UInt32) : v.toUInt8.toNat = v.toNat % 256 := by
  simp [UInt32.toUInt8, Nat.toUInt8, UInt8.ofNat, UInt8.toNat]

set_option maxRecDepth 100000 in
theorem mask_nat : ∀ n : Nat, n < 256 →
    (n &&& 0x3f ||| 0x80) = n % 64 + 128 ∧ (n &&& 0x1f ||| 0xc0) = n % 32 + 192 ∧
    (n &&& 0x0f ||| 0xe0) = n % 16 + 224 ∧ (n &&& 0x07 ||| 0xf0) = n % 8 + 240 := by
  decide

theorem mask_toNat (w : UInt32) (m t : UInt8) :
    (w.toUInt8 &&& m ||| t).toNat = (w.toNat % 256 &&& m.toNat) ||| t.toNat := by
  have h1 : (w.toUInt8 &&& m ||| t).toNat = (w.toUInt8 &&& m).toNat ||| t.toNat :=
    BitVec.toNat_or ..
  rw [h1, UInt8.and_toNat, toUInt8_toNat]

theorem cont_toNat (w : UInt32) : (w.toUInt8 &&& 0x3f ||| 0x80).toNat = w.toNat % 64 + 128 := by
  rw [mask_toNat]
  have h := (mask_nat (w.toNat % 256) (Nat.mod_lt _ (by decide))).1
  have e1 : (0x3f : UInt8).toNat = 0x3f := by decide
  have e2 : (0x80 : UInt8).toNat = 0x80 := by decide
  rw [e1, e2, h]
  omega

theorem lead2_toNat (w : UInt32) : (w.toUInt8 &&& 0x1f ||| 0xc0).toNat = w.toNat % 32 + 192 := by
  rw [mask_toNat]
  have h := (mask_nat (w.toNat % 256) (Nat.mod_lt _ (by decide))).2.1
  have e1 : (0x1f : UInt8).toNat = 0x1f := by decide
  have e2 : (0xc0 : UInt8).toNat = 0xc0 := by decide
  rw [e1, e2, h]
  omega

theorem lead3_toNat (w : UInt32) : (w.toUInt8 &&& 0x0f ||| 0xe0).toNat = w.toNat % 16 + 224 := by
  rw [mask_toNat]
  have h := (mask_nat (w.toNat % 256) (Nat.mod_lt _ (by decide))).2.2.1
  have e1 : (0x0f : UInt8).toNat = 0x0f := by decide
  have e2 : (0xe0 : UInt8).toNat = 0xe0 := by decide
  rw [e1, e2, h]
  omega

theorem lead4_toNat (w : UInt32) : (w.toUInt8 &&& 0x07 ||| 0xf0).toNat = w.toNat % 8 + 240 := by
  rw [mask_toNat]
  have h := (mask_nat (w.toNat % 256) (Nat.mod_lt _ (by decide))).2.2.2
  have e1 : (0x07 : UInt8).toNat = 0x07 := by decide
  have e2 : (0xf0 : UInt8).toNat = 0xf0 := by decide
  rw [e1, e2, h]
  omega

theorem char_valid (c : Char) :
    c.val.toNat < 0xD800 ∨ (0xDFFF < c.val.toNat ∧ c.val.toNat < 0x110000) := by
  have := c.valid
  simpa [UInt32.isValidChar, Nat.isValidChar] using this

theorem decodeRune_one (b0 : UInt8) (rest : GoString) (h0 : b0.toNat < 128) :
    decodeRune (b0 :: rest) = some (Char.ofNat b0.toNat, 1) := by
  simp [decodeRune, h0]

theorem decodeRune_two (b0 b1 : UInt8) (rest : GoString)
    (h0 : 194 ≤ b0.toNat ∧ b0.toNat ≤ 223) (h1 : 128 ≤ b1.toNat ∧ b1.toNat ≤ 191) :
    decodeRune (b0 :: b1 :: rest)
      = some (Char.ofNat (b0.toNat % 32 * 64 + b1.toNat % 64), 2) := by
  have n0 : ¬ b0.toNat < 128 := by omega
  simp [decodeRune, inRange, n0, h0, h1]

theorem decodeRune_three (b0 b1 b2 : UInt8) (rest : GoString)
    (h0 : 224 ≤ b0.toNat ∧ b0.toNat ≤ 239)
    (h1 : (if b0.toNat = 224 then 160 else 128) ≤ b1.toNat)
    (h1' : b1.toNat ≤ (if b0.toNat = 237 then 159 else 191))
    (h2 : 128 ≤ b2.toNat ∧ b2.toNat ≤ 191) :
    decodeRune (b0 :: b1 :: b2 :: rest)
      = some (Char.ofNat (b0.toNat % 16 * 4096 + b1.toNat % 64 * 64 + b2.toNat % 64), 3) := by
  have n0 : ¬ b0.toNat < 128 := by omega
  have q0 : ¬ (194 ≤ b0.toNat ∧ b0.toNat ≤ 223) := by omega
  simp [decodeRune, inRange, n0, q0, h0, h1, h1', h2]

theorem decodeRune_four (b0 b1 b2 b3 : UInt8) (rest : GoString)
    (h0 : 240 ≤ b0.toNat ∧ b0.toNat ≤ 244)
    (h1 : (if b0.toNat = 240 then 144 else 128) ≤ b1.toNat)
    (h1' : b1.toNat ≤ (if b0.toNat = 244 then 143 else 191))
    (h2 : 128 ≤ b2.toNat ∧ b2.toNat ≤ 191) (h3 : 128 ≤ b3.toNat ∧ b3.toNat ≤ 191) :
    decodeRune (b0 :: b1 :: b2 :: b3 :: rest)
      = some (Char.ofNat (b0.toNat % 8 * 262144 + b1.toNat % 64 * 4096
          + b2.toNat % 64 * 64 + b3.toNat % 64), 4) := by
  have n0 : ¬ b0.toNat < 128 := by omega
  have q0 : ¬ (194 ≤ b0.toNat ∧ b0.toNat ≤ 223) := by omega
  have q1 : ¬ (224 ≤ b0.toNat ∧ b0.toNat ≤ 239) := by omega
  simp [decodeRune, inRange, n0, q0, q1, h0, h1, h1', h2, h3]

theorem decode_width1 (b0 : UInt8) (rest : GoString) (n : Nat)
    (h0 : b0.toNat = n) (hn : n ≤ 127) :
    toValidUTF8Aux 0 (b0 :: rest) = Char.ofNat n :: toValidUTF8Aux 0 rest := by
  have e := decodeRune_one b0 rest (by omega)
  simp only [toValidUTF8Aux, e, h0]

theorem decode_width2 (b0 b1 : UInt8) (rest : GoString) (n : Nat)
    (h0 : b0.toNat = n / 64 % 32 + 192) (h1 : b1.toNat = n % 64 + 128)
    (hlo : 127 < n) (hhi : n ≤ 2047) :
    toValidUTF8Aux 0 (b0 :: b1 :: rest) = Char.ofNat n :: toValidUTF8Aux 0 rest := by
  have e := decodeRune_two b0 b1 rest (by omega) (by omega)
  have ev : b0.toNat % 32 * 64 + b1.toNat % 64 = n := by omega
  simp only [toValidUTF8Aux, e, ev]

theorem decode_width3 (b0 b1 b2 : UInt8) (rest : GoString) (n : Nat)
    (h0 : b0.toNat = n / 4096 % 16 + 224) (h1 : b1.toNat = n / 64 % 64 + 128)
    (h2 : b2.toNat = n % 64 + 128)
    (hlo : 2047 < n) (hhi : n ≤ 65535) (hs : n < 0xD800 ∨ 0xDFFF < n) :
    toValidUTF8Aux 0 (b0 :: b1 :: b2 :: rest) = Char.ofNat n :: toValidUTF8Aux 0 rest := by
  have e := decodeRune_three b0 b1 b2 rest (by omega) (by split_ifs <;> omega)
    (by split_ifs <;> omega) (by omega)
  have ev : b0.toNat % 16 * 4096 + b1.toNat % 64 * 64 + b2.toNat % 64 = n := by omega
  simp only [toValidUTF8Aux, e, ev]

theorem decode_width4 (b0 b1 b2 b3 : UInt8) (rest : GoString) (n : Nat)
    (h0 : b0.toNat = n / 262144 % 8 + 240) (h1 : b1.toNat = n / 4096 % 64 + 128)
    (h2 : b2.toNat = n / 64 % 64 + 128) (h3 : b3.toNat = n % 64 + 128)
    (hlo : 65535 < n) (hhi : n < 0x110000) :
    toValidUTF8Aux 0 (b0 :: b1 :: b2 :: b3 :: rest)
      = Char.ofNat n :: toValidUTF8Aux 0 rest := by
  have e := decodeRune_four b0 b1 b2 b3 rest (by omega) (by split_ifs <;> omega)
    (by split_ifs <;> omega) (by omega) (by omega)
  have ev : b0.toNat % 8 * 262144 + b1.toNat % 64 * 4096 + b2.toNat % 64 * 64
      + b3.toNat % 64 = n := by omega
  simp only [toValidUTF8Aux, e, ev]

theorem toValidUTF8Aux_encode (c : Char) (rest : GoString) :
    toValidUTF8Aux 0 (String.utf8EncodeChar c ++ rest) = c :: toValidUTF8Aux 0 rest := by
  have hv := char_valid c
  have hc : Char.ofNat c.val.toNat = c := Char.ofNat_toNat c
  unfold String.utf8EncodeChar
  dsimp only
  by_cases h1 : c.val ≤ 0x7f
  · rw [if_pos h1]
    have h1' : c.val.toNat ≤ 127 := h1
    have e := decode_width1 c.val.toUInt8 rest c.val.toNat
      (by rw [toUInt8_toNat]; omega) h1'
    rw [hc] at e
    exact e
  · rw [if_neg h1]
    have h1' : ¬ c.val.toNat ≤ 127 := h1
    by_cases h2 : c.val ≤ 0x7ff
    · rw [if_pos h2]
      have h2' : c.val.toNat ≤ 2047 := h2
      have e := decode_width2 _ _ rest c.val.toNat
        (by rw [lead2_toNat, shr_toNat6]) (cont_toNat c.val) (by omega) h2'
      rw [hc] at e
      exact e
    · rw [if_neg h2]
      have h2' : ¬ c.val.toNat ≤ 2047 := h2
      by_cases h3 : c.val ≤ 0xffff
      · rw [if_pos h3]
        have h3' : c.val.toNat ≤ 65535 := h3
        have e := decode_width3 _ _ _ rest c.val.toNat
          (by rw [lead3_toNat, shr_toNat12]) (by rw [cont_toNat, shr_toNat6])
          (cont_toNat c.val) (by omega) h3' (by omega)
        rw [hc] at e
        exact e
      · rw [if_neg h3]
        have h3' : ¬ c.val.toNat ≤ 65535 := h3
        have e := decode_width4 _ _ _ _ rest c.val.toNat
          (by rw [lead4_toNat, shr_toNat18]) (by rw [cont_toNat, shr_toNat12])
          (by rw [cont_toNat, shr_toNat6]) (cont_toNat c.val) (by omega) (by omega)
        rw [hc] at e
        exact e

theorem toValidUTF8_utf8 (cs : List Char) : toValidUTF8 (utf8 cs) = cs := by
  unfold toValidUTF8
  induction cs with
  | nil => simp [utf8, toValidUTF8Aux]
  | cons c rest ih =>
    have : utf8 (c :: rest) = String.utf8EncodeChar c ++ utf8 rest := by
      simp [utf8, List.flatMap_cons]
    rw [this, toValidUTF8Aux_encode, ih]

/-- The bounds of the encodable times: the last second of year 9999 and the
first of year 0 can be encoded, the seconds next to them cannot, in UTC and on
the wall clock of another zone; and a zone of 24 hours cannot. -/
theorem Time.encodable_bounds :
    Time.encodable ⟨253402300799, 0, 0⟩ = true ∧
    Time.encodable ⟨253402300800, 0, 0⟩ = false ∧
    Time.encodable ⟨-62167219200, 0, 0⟩ = true ∧
    Time.encodable ⟨-62167219201, 0, 0⟩ = false ∧
    lastSecond.encodable = true ∧ lastSecond.UTC.encodable = false ∧
    Time.encodable ⟨0, 0, 86399⟩ = true ∧ Time.encodable ⟨0, 0, 86400⟩ = false ∧
    Time.encodable ⟨0, 0, -86400⟩ = false := by
  decide

/-- The decoder on bytes that are not well-formed UTF-8: a lone byte 0xFF, an
overlong encoding, an encoded surrogate and a truncated sequence each give
U+FFFD for every byte, and the text around them is kept. -/
theorem toValidUTF8_malformed :
    toValidUTF8 [255, 97] = [Char.ofNat 0xFFFD, Char.ofNat 97] ∧
    toValidUTF8 [0xC0, 0x80] = [Char.ofNat 0xFFFD, Char.ofNat 0xFFFD] ∧
    toValidUTF8 [0xED, 0xA0, 0x80] = [Char.ofNat 0xFFFD, Char.ofNat 0xFFFD, Char.ofNat 0xFFFD] ∧
    toValidUTF8 [0xE2, 0x82] = [Char.ofNat 0xFFFD, Char.ofNat 0xFFFD] ∧
    toValidUTF8 [0xE2, 0x82, 0xAC] = [Char.ofNat 0x20AC] := by
  decide

/-- The JSON object of a row whose title and description are UTF-8 text holds
that text unchanged. -/
theorem eventJSON_of_utf8 (e : Event) (t d : List Char)
    (ht : e.Title = utf8 t) (hd : e.Description = utf8 d) :
    eventJSON e = JSON.obj [("id", JSON.uuid e.ID), ("title", JSON.str t),
      ("description", JSON.str d), ("start_time", JSON.time e.StartTime),
      ("end_time", JSON.time e.EndTime), ("created_at", JSON.time e.CreatedAt)] := by
  simp [eventJSON, ht, hd, toValidUTF8_utf8]

/-! ## Validator theorems -/

/-- C1: `validateInput` equals the ordered reference definition on every input
(empty title first, then more than 100 bytes, then start after end, otherwise no
error), and a title of length 1..100 with start equal to end is accepted. -/
theorem validateInput_eq_ref :
    (∀ (title : GoString) (s e : Time),
      validateInput title s e = (validateRef title s e).toError) ∧
    (∀ (s e : Time), validateInput [] s e = some "title is required") ∧
    (∀ (title : GoString) (s e : Time), title ≠ [] → len title > 100 →
      validateInput title s e = some "title too long") ∧
    (∀ (title : GoString) (s e : Time), title ≠ [] → len title ≤ 100 →
      s.After e = true →
      validateInput title s e = some "start time must be before end time") ∧
    (∀ (title : GoString) (s e : Time), title ≠ [] → len title ≤ 100 →
      s.After e = false → validateInput title s e = none) ∧
    (∀ (title : GoString) (t : Time), 1 ≤ len title → len title ≤ 100 →
      validateInput title t t = none) := by
  refine ⟨?_, ?_, ?_, ?_, ?_, ?_⟩
  · intro title s e
    unfold validateInput validateRef
    by_cases h0 : title = []
    · simp [h0, len, Verdict.toError]
    · have h0' : ¬ len title = 0 := fun h => h0 ((len_eq_zero_iff title).1 h)
      by_cases h1 : len title > 100
      · have h1' : 100 < len title := h1
        simp [h0, h0', h1', Verdict.toError]
      · have h1' : ¬ 100 < len title := h1
        by_cases h2 : s.After e = true
        · simp [h0, h0', h1', h2, Verdict.toError]
        · simp [h0, h0', h1', h2, Verdict.toError]
  · intro s e
    simp [validateInput]
  · intro title s e h0 h1
    simp [validateInput, h0, h1]
  · intro title s e h0 h1 h2
    have h1' : ¬ len title > 100 := by omega
    simp [validateInput, h0, h1', h2]
  · intro title s e h0 h1 h2
    have h1' : ¬ len title > 100 := by omega
    simp [validateInput, h0, h1', h2]
  · intro title t h1 h2
    exact validateInput_of_len title t t h1 h2 (Time.After_self t)

/-- Witness for C1 at the one-byte title "a" with start equal to end. -/
theorem validateInput_eq_ref_witness :
    validateInput [97] ⟨0, 0, 0⟩ ⟨0, 0, 0⟩ = none :=
  validateInput_eq_ref.2.2.2.2.2 [97] ⟨0, 0, 0⟩ (by decide) (by decide)

/-- C2 (as stated, refuted): a title of 51 characters, each the two-byte
character U+00E9, with start equal to end, is rejected as too long, so not
every title of 1 to 100 characters is accepted. -/
theorem validateInput_chars_counterexample :
    (List.replicate 51 (Char.ofNat 233)).length = 51 ∧
    validateInput (utf8 (List.replicate 51 (Char.ofNat 233))) ⟨0, 0, 0⟩ ⟨0, 0, 0⟩
      = some "title too long" ∧
    ¬ (∀ (cs : List Char) (s e : Time), 1 ≤ cs.length → cs.length ≤ 100 →
        s.After e = false → validateInput (utf8 cs) s e = none) := by
  have hl : len (utf8 (List.replicate 51 (Char.ofNat 233))) = 102 := by
    rw [len_utf8_replicate]
    decide
  have hv : validateInput (utf8 (List.replicate 51 (Char.ofNat 233))) ⟨0, 0, 0⟩ ⟨0, 0, 0⟩
      = some "title too long" := validateInput_of_long _ _ _ (by omega)
  refine ⟨by simp, hv, ?_⟩
  intro hall
  have hn := hall (List.replicate 51 (Char.ofNat 233)) ⟨0, 0, 0⟩ ⟨0, 0, 0⟩
    (by simp) (by simp) (by decide)
  rw [hv] at hn
  cases hn

/-- C2 (amended): every title whose UTF-8 encoding has between 1 and 100 bytes
is accepted when start is not after end; the limit is 100 bytes. -/
theorem validateInput_accepts_bytes (cs : List Char) (s e : Time)
    (h1 : 1 ≤ len (utf8 cs)) (h2 : len (utf8 cs) ≤ 100) (h3 : s.After e = false) :
    validateInput (utf8 cs) s e = none :=
  validateInput_of_len (utf8 cs) s e h1 h2 h3

/-- Witness for C2 (amended) at the two-byte title made of the single
character U+00E9. -/
theorem validateInput_accepts_bytes_witness :
    validateInput (utf8 [Char.ofNat 233]) ⟨0, 0, 0⟩ ⟨5, 0, 0⟩ = none :=
  validateInput_accepts_bytes [Char.ofNat 233] ⟨0, 0, 0⟩ ⟨5, 0, 0⟩
    (by decide) (by decide) (by decide)

/-! ## Create -/

/-- C3: when the body does not decode, or the decoded input has an empty title,
a title longer than 100, or a start after its end, `createEvent` answers 400,
issues no statement and leaves the store as it was. -/
theorem createEvent_rejects {σ : Type} (env : Env) (B : Backend σ) (s : σ) (r : Request) :
    (env.jsonDecode r.Body = none →
      (createEvent env B s r).resp.status = 400 ∧
      (createEvent env B s r).stmts = [] ∧ (createEvent env B s r).st = s) ∧
    (∀ inp : CreateInput, env.jsonDecode r.Body = some inp →
      (inp.Title = [] ∨ len inp.Title > 100 ∨ inp.StartTime.After inp.EndTime = true) →
      (createEvent env B s r).resp.status = 400 ∧
      (createEvent env B s r).stmts = [] ∧ (createEvent env B s r).st = s) := by
  constructor
  · intro hd
    simp [createEvent, hd, httpError]
  · intro inp hd hbad
    have hv : ∃ msg, validateInput inp.Title inp.StartTime inp.EndTime = some msg := by
      rcases hbad with h | h | h
      · exact ⟨"title is required", by simp [validateInput, h]⟩
      · exact ⟨_, validateInput_of_long _ _ _ h⟩
      · unfold validateInput
        by_cases h0 : inp.Title = []
        · exact ⟨_, by rw [if_pos h0]⟩
        · by_cases h1 : len inp.Title > 100
          · exact ⟨_, by rw [if_neg h0, if_pos h1]⟩
          · exact ⟨_, by rw [if_neg h0, if_neg h1, if_pos h]⟩
    obtain ⟨msg, hmsg⟩ := hv
    simp [createEvent, hd, hmsg, httpError]

/-- Witness for C3 on the store held in memory: a body of 101 bytes decodes to
a title of 101 bytes. -/
theorem createEvent_rejects_witness :
    (createEvent sampleEnv memBackend [sampleEvent 1 10]
        ⟨"POST", [], List.replicate 101 97⟩).resp.status = 400 ∧
    (createEvent sampleEnv memBackend [sampleEvent 1 10]
        ⟨"POST", [], List.replicate 101 97⟩).stmts = [] ∧
    (createEvent sampleEnv memBackend [sampleEvent 1 10]
        ⟨"POST", [], List.replicate 101 97⟩).st = [sampleEvent 1 10] :=
  (createEvent_rejects sampleEnv memBackend [sampleEvent 1 10]
      ⟨"POST", [], List.replicate 101 97⟩).2
    ⟨List.replicate 101 97, List.replicate 101 97, ⟨0, 0, 0⟩, ⟨60, 0, 0⟩⟩ (by rfl)
    (Or.inr (Or.inl (by decide)))

/-- C4 (as stated, refuted): the input with a one-byte title and start and end
at 9999-12-31T23:59:59-01:00 is valid and its insert succeeds, and the store
returns the row in UTC, in year 10000; the answer is 201 with nothing as body,
not the returned row. -/
theorem createEvent_unencodable_row :
    edgeEnv.jsonDecode [97] = some ⟨[97], [], lastSecond, lastSecond⟩ ∧
    1 ≤ len [97] ∧ len [97] ≤ 100 ∧ lastSecond.After lastSecond = false ∧
    (memBackend.insertReturning [] (newEvent edgeEnv ⟨[97], [], lastSecond, lastSecond⟩)).1
      = Except.ok edgeEvent ∧
    (createEvent edgeEnv memBackend [] ⟨"POST", [], [97]⟩).resp.status = 201 ∧
    (createEvent edgeEnv memBackend [] ⟨"POST", [], [97]⟩).resp.body = Body.empty ∧
    (createEvent edgeEnv memBackend [] ⟨"POST", [], [97]⟩).resp.body
      ≠ Body.json (eventJSON edgeEvent) ∧
    (createEvent edgeEnv memBackend [] ⟨"POST", [], [97]⟩).st = [edgeEvent] := by
  have hb : (createEvent edgeEnv memBackend [] ⟨"POST", [], [97]⟩).resp.body = Body.empty := rfl
  refine ⟨rfl, by decide, by decide, by decide, rfl, rfl, hb, ?_, rfl⟩
  rw [hb]
  intro h
  cases h

/-- C4 (amended): for a decoded input with `1 ≤ len title ≤ 100` and start not
after end, `createEvent` issues exactly one insert, carrying the four input
fields with the id of `uuid.New()` and the `created_at` of `time.Now()`; when
the insert succeeds the answer is 201 and, for a returned row whose times can be
encoded, the body is the JSON object of that row, holding its title and
description unchanged when they are UTF-8 text; when the insert fails the
answer is 500. -/
theorem createEvent_valid {σ : Type} (env : Env) (B : Backend σ) (s : σ) (r : Request)
    (inp : CreateInput) (hd : env.jsonDecode r.Body = some inp)
    (h1 : 1 ≤ len inp.Title) (h2 : len inp.Title ≤ 100)
    (h3 : inp.StartTime.After inp.EndTime = false) :
    validateInput inp.Title inp.StartTime inp.EndTime = none ∧
    (createEvent env B s r).stmts = [Stmt.insert (newEvent env inp)] ∧
    (newEvent env inp).ID = env.uuidNew ∧ (newEvent env inp).Title = inp.Title ∧
    (newEvent env inp).Description = inp.Description ∧
    (newEvent env inp).StartTime = inp.StartTime ∧
    (newEvent env inp).EndTime = inp.EndTime ∧
    (newEvent env inp).CreatedAt = env.timeNow ∧
    (∀ (row : Event) (s1 : σ),
      B.insertReturning s (newEvent env inp) = (Except.ok row, s1) →
      (createEvent env B s r).resp.status = 201 ∧
      (createEvent env B s r).st = s1 ∧
      (row.encodable = true →
        (createEvent env B s r).resp.body = Body.json (eventJSON row)) ∧
      (∀ t d : List Char, row.encodable = true → row.Title = utf8 t →
        row.Description = utf8 d →
        (createEvent env B s r).resp.body = Body.json
          (JSON.obj [("id", JSON.uuid row.ID), ("title", JSON.str t),
            ("description", JSON.str d), ("start_time", JSON.time row.StartTime),
            ("end_time", JSON.time row.EndTime), ("created_at", JSON.time row.CreatedAt)]))) ∧
    (∀ (err : DbError) (s1 : σ),
      B.insertReturning s (newEvent env inp) = (Except.error err, s1) →
      (createEvent env B s r).resp.status = 500 ∧
      (createEvent env B s r).st = s1) := by
  have hv := validateInput_of_len inp.Title inp.StartTime inp.EndTime h1 h2 h3
  refine ⟨hv, ?_, rfl, rfl, rfl, rfl, rfl, rfl, ?_, ?_⟩
  · simp only [createEvent, hd, hv]
    rcases hins : B.insertReturning s (newEvent env inp) with ⟨res, s1⟩
    cases res <;> simp
  · intro row s1 hins
    have hbody : row.encodable = true →
        (createEvent env B s r).resp.body = Body.json (eventJSON row) := by
      intro henc
      simp [createEvent, hd, hv, hins, marshalEvent, henc, encodeBody]
    refine ⟨?_, ?_, hbody, ?_⟩
    · simp [createEvent, hd, hv, hins]
    · simp [createEvent, hd, hv, hins]
    · intro t d henc ht hdesc
      rw [hbody henc, eventJSON_of_utf8 row t d ht hdesc]
  · intro err s1 hins
    simp [createEvent, hd, hv, hins, httpError]

/-- Witness for C4 (amended) on the store held in memory: the one-byte title
"a" is inserted into the empty store and the answer is 201 with the stored row,
its title the text "a". -/
theorem createEvent_valid_witness :
    (createEvent sampleEnv memBackend [] ⟨"POST", [], [97]⟩).resp.status = 201 ∧
    (createEvent sampleEnv memBackend [] ⟨"POST", [], [97]⟩).st
      = [⟨sampleEnv.uuidNew, [97], [97], ⟨0, 0, 0⟩, ⟨60, 0, 0⟩, sampleEnv.timeNow⟩] ∧
    (createEvent sampleEnv memBackend [] ⟨"POST", [], [97]⟩).resp.body
      = Body.json (JSON.obj [("id", JSON.uuid sampleEnv.uuidNew),
          ("title", JSON.str [Char.ofNat 97]), ("description", JSON.str [Char.ofNat 97]),
          ("start_time", JSON.time ⟨0, 0, 0⟩), ("end_time", JSON.time ⟨60, 0, 0⟩),
          ("created_at", JSON.time ⟨100, 0, 0⟩)]) :=
  have h := (createEvent_valid sampleEnv memBackend [] ⟨"POST", [], [97]⟩
    ⟨[97], [97], ⟨0, 0, 0⟩, ⟨60, 0, 0⟩⟩ (by rfl) (by decide) (by decide)
    (by decide)).2.2.2.2.2.2.2.2.1
    ⟨sampleEnv.uuidNew, [97], [97], ⟨0, 0, 0⟩, ⟨60, 0, 0⟩, sampleEnv.timeNow⟩
    [⟨sampleEnv.uuidNew, [97], [97], ⟨0, 0, 0⟩, ⟨60, 0, 0⟩, sampleEnv.timeNow⟩] (by rfl)
  ⟨h.1, h.2.1, h.2.2.2 [Char.ofNat 97] [Char.ofNat 97] (by rfl) (by rfl) (by rfl)⟩

/-! ## Routing -/

/-- C5: `eventsHandler` runs the list operation on GET and the create
operation on POST, and answers 405 without touching the store on any other
method; `eventsByIdHandler` answers 405 without touching the store on every
method other than GET, whatever the path is. -/
theorem method_dispatch {σ : Type} (env : Env) (B : Backend σ) (s : σ) (r : Request) :
    (r.Method = "GET" → eventsHandler env B s r = listEvents B s r) ∧
    (r.Method = "POST" → eventsHandler env B s r = createEvent env B s r) ∧
    (r.Method ≠ "GET" → r.Method ≠ "POST" →
      (eventsHandler env B s r).resp.status = 405 ∧
      (eventsHandler env B s r).stmts = [] ∧ (eventsHandler env B s r).st = s) ∧
    (r.Method ≠ "GET" →
      ∃ res, eventsByIdHandler env B s r = some res ∧
        res.resp.status = 405 ∧ res.stmts = [] ∧ res.st = s) := by
  refine ⟨?_, ?_, ?_, ?_⟩
  · intro h
    simp [eventsHandler, h]
  · intro h
    simp [eventsHandler, h]
  · intro hg hp
    simp [eventsHandler, hg, hp, httpError]
  · intro hg
    refine ⟨{ resp := httpError "Method not allowed" 405, stmts := [], st := s }, ?_,
      rfl, rfl, rfl⟩
    simp [eventsByIdHandler, hg]

/-- Witness for C5: DELETE on `/events` is answered 405 and the store is not
touched. -/
theorem method_dispatch_witness :
    (eventsHandler sampleEnv memBackend [sampleEvent 1 10] ⟨"DELETE", [], []⟩).resp.status = 405 ∧
    (eventsHandler sampleEnv memBackend [sampleEvent 1 10] ⟨"DELETE", [], []⟩).stmts = [] ∧
    (eventsHandler sampleEnv memBackend [sampleEvent 1 10] ⟨"DELETE", [], []⟩).st
      = [sampleEvent 1 10] :=
  (method_dispatch sampleEnv memBackend [sampleEvent 1 10] ⟨"DELETE", [], []⟩).2.2.1
    (by decide) (by decide)

/-- C6: on GET with path `/events/` followed by a segment, `eventsByIdHandler`
answers 400 without touching the store when the segment does not parse as a
UUID, and runs `getEventByID` with the parsed UUID when it does; the lookup it
then issues is for exactly that id. -/
theorem id_segment_parse {σ : Type} (env : Env) (B : Backend σ) (s : σ) (r : Request)
    (seg : GoString) (hm : r.Method = "GET") (hp : r.Path = eventsSlash ++ seg) :
    (env.uuidParse seg = none →
      ∃ res, eventsByIdHandler env B s r = some res ∧
        res.resp.status = 400 ∧ res.stmts = [] ∧ res.st = s) ∧
    (∀ id : UUID, env.uuidParse seg = some id →
      eventsByIdHandler env B s r = some (getEventByID B s r id) ∧
      (getEventByID B s r id).stmts = [Stmt.selectByID id]) := by
  have hlen : ¬ len r.Path < 8 := by
    rw [hp]
    simp [len, eventsSlash]
  have hdrop : List.drop 8 r.Path = seg := by
    rw [hp]
    simp [eventsSlash]
  constructor
  · intro hn
    refine ⟨{ resp := httpError "Invalid event ID" 400, stmts := [], st := s }, ?_,
      rfl, rfl, rfl⟩
    simp [eventsByIdHandler, hm, hlen, hdrop, hn]
  · intro id hs
    constructor
    · simp [eventsByIdHandler, hm, hlen, hdrop, hs]
    · unfold getEventByID
      rcases B.selectByID s id with ⟨res, s1⟩
      cases res with
      | error err => cases err <;> simp [DbError.isNoRows]
      | ok e => simp

/-- Witness for C6: GET on the path `/events/` with the empty segment, which
does not parse. -/
theorem id_segment_parse_witness :
    ∃ res, eventsByIdHandler sampleEnv memBackend [sampleEvent 1 10]
        ⟨"GET", eventsSlash, []⟩ = some res ∧
      res.resp.status = 400 ∧ res.stmts = [] ∧ res.st = [sampleEvent 1 10] :=
  (id_segment_parse sampleEnv memBackend [sampleEvent 1 10] ⟨"GET", eventsSlash, []⟩ []
    (by rfl) (by rfl)).1 (by rfl)

/-! ## Get by id -/

/-- C7 (as stated, refuted): the stored row in year 10000 is found and the
answer is 200 with nothing as body; and two stored rows whose titles are the
different bytes 0xFF and 0xFE are both answered with the title U+FFFD, so the
body does not hold exactly the fields of the stored row. -/
theorem getEventByID_unencodable_row :
    (memBackend.selectByID [edgeEvent] edgeEvent.ID).1 = Except.ok edgeEvent ∧
    (getEventByID memBackend [edgeEvent] ⟨"GET", [], []⟩ edgeEvent.ID).resp.status = 200 ∧
    (getEventByID memBackend [edgeEvent] ⟨"GET", [], []⟩ edgeEvent.ID).resp.body
      = Body.empty ∧
    (getEventByID memBackend [edgeEvent] ⟨"GET", [], []⟩ edgeEvent.ID).resp.body
      ≠ Body.json (eventJSON edgeEvent) ∧
    (byteTitleEvent 255).Title ≠ (byteTitleEvent 254).Title ∧
    (getEventByID memBackend [byteTitleEvent 255] ⟨"GET", [], []⟩
        (byteTitleEvent 255).ID).resp.body
      = (getEventByID memBackend [byteTitleEvent 254] ⟨"GET", [], []⟩
        (byteTitleEvent 254).ID).resp.body ∧
    (getEventByID memBackend [byteTitleEvent 255] ⟨"GET", [], []⟩
        (byteTitleEvent 255).ID).resp.body
      = Body.json (JSON.obj [("id", JSON.uuid (byteTitleEvent 255).ID),
          ("title", JSON.str [Char.ofNat 0xFFFD]), ("description", JSON.str []),
          ("start_time", JSON.time ⟨0, 0, 0⟩), ("end_time", JSON.time ⟨60, 0, 0⟩),
          ("created_at", JSON.time ⟨0, 0, 0⟩)]) := by
  have hb : (getEventByID memBackend [edgeEvent] ⟨"GET", [], []⟩ edgeEvent.ID).resp.body
      = Body.empty := rfl
  refine ⟨rfl, rfl, hb, ?_, by decide, rfl, rfl⟩
  rw [hb]
  intro h
  cases h

/-- C7 (amended): `getEventByID` answers 404 exactly when the lookup reports
`sql.ErrNoRows`, 500 exactly when it reports another error, and 200 exactly when
it returns a row; the status is always one of the three; and for a returned row
whose times can be encoded the body is the JSON object of its six fields, the
title and the description as JSON text: unchanged when they are UTF-8 text, and
with U+FFFD for each byte that is not. -/
theorem getEventByID_outcomes {σ : Type} (B : Backend σ) (s : σ) (r : Request) (id : UUID) :
    ((getEventByID B s r id).resp.status = 404 ↔
      (B.selectByID s id).1 = Except.error DbError.errNoRows) ∧
    ((getEventByID B s r id).resp.status = 500 ↔
      ∃ err, err ≠ DbError.errNoRows ∧ (B.selectByID s id).1 = Except.error err) ∧
    ((getEventByID B s r id).resp.status = 200 ↔
      ∃ row, (B.selectByID s id).1 = Except.ok row) ∧
    (∀ row, (B.selectByID s id).1 = Except.ok row → row.encodable = true →
      (getEventByID B s r id).resp.body = Body.json (eventJSON row) ∧
      eventJSON row = JSON.obj [("id", JSON.uuid row.ID),
        ("title", JSON.str (toValidUTF8 row.Title)),
        ("description", JSON.str (toValidUTF8 row.Description)),
        ("start_time", JSON.time row.StartTime), ("end_time", JSON.time row.EndTime),
        ("created_at", JSON.time row.CreatedAt)] ∧
      (∀ t d : List Char, row.Title = utf8 t → row.Description = utf8 d →
        (getEventByID B s r id).resp.body = Body.json
          (JSON.obj [("id", JSON.uuid row.ID), ("title", JSON.str t),
            ("description", JSON.str d), ("start_time", JSON.time row.StartTime),
            ("end_time", JSON.time row.EndTime), ("created_at", JSON.time row.CreatedAt)]))) ∧
    ((getEventByID B s r id).resp.status = 404 ∨ (getEventByID B s r id).resp.status = 500 ∨
      (getEventByID B s r id).resp.status = 200) ∧
    (getEventByID B s r id).stmts = [Stmt.selectByID id] := by
  unfold getEventByID
  rcases B.selectByID s id with ⟨res, s1⟩
  cases res with
  | error err => cases err <;> simp [DbError.isNoRows, httpError]
  | ok e =>
    refine ⟨by simp, by simp, by simp, ?_, by simp, by simp⟩
    intro row hrow henc
    have hre : e = row := by
      simpa using hrow
    subst hre
    have hbody : encodeBody (marshalEvent e) = Body.json (eventJSON e) := by
      simp [marshalEvent, henc, encodeBody]
    refine ⟨hbody, rfl, ?_⟩
    intro t d ht hdesc
    show encodeBody (marshalEvent e) = _
    rw [hbody, eventJSON_of_utf8 e t d ht hdesc]

/-- Witness for C7 (amended) on the store held in memory: the id of a stored
row is answered with the JSON object of that row. -/
theorem getEventByID_outcomes_witness :
    (getEventByID memBackend [sampleEvent 1 10] ⟨"GET", [], []⟩ (sampleEvent 1 10).ID).resp.body
      = Body.json (eventJSON (sampleEvent 1 10)) :=
  ((getEventByID_outcomes memBackend [sampleEvent 1 10] ⟨"GET", [], []⟩
    (sampleEvent 1 10).ID).2.2.2.1 (sampleEvent 1 10) (by rfl) (by rfl)).1

/-! ## List -/

theorem scanRows_ok_some (es xs : List Event) :
    scanRows (es.map Except.ok) (some xs) = Except.ok (some (xs ++ es)) := by
  induction es generalizing xs with
  | nil => simp [scanRows]
  | cons e rest ih =>
    simp only [List.map_cons, scanRows, Slice.append]
    rw [ih]
    simp

theorem scanRows_ok_nil (es : List Event) :
    scanRows (es.map Except.ok) none = Except.ok (if es = [] then none else some es) := by
  cases es with
  | nil => simp [scanRows]
  | cons e rest =>
    simp only [List.map_cons, scanRows, Slice.append]
    rw [scanRows_ok_some]
    simp

theorem scanRows_error (es : List Event) (err : DbError) (rest : List (Except DbError Event))
    (sl : Slice Event) :
    scanRows (es.map Except.ok ++ Except.error err :: rest) sl
      = Except.error (httpError "Error scanning event" 500) := by
  induction es generalizing sl with
  | nil => simp [scanRows]
  | cons e more ih =>
    simp only [List.map_cons, List.cons_append, scanRows]
    exact ih _

/-- When the query cannot start, `listEvents` answers 500. -/
theorem listEvents_query_error {σ : Type} (B : Backend σ) (s s1 : σ) (r : Request)
    (err : DbError) (hq : B.selectAll s = (Except.error err, s1)) :
    (listEvents B s r).resp.status = 500 := by
  simp [listEvents, hq, httpError]

/-- When a row fails to scan, `listEvents` answers 500, whatever was read
before it. -/
theorem listEvents_scan_error {σ : Type} (B : Backend σ) (s s1 : σ) (r : Request)
    (rows : Rows) (es : List Event) (err : DbError) (rest : List (Except DbError Event))
    (hq : B.selectAll s = (Except.ok rows, s1))
    (hs : rows.items = es.map Except.ok ++ Except.error err :: rest) :
    (listEvents B s r).resp.status = 500 := by
  simp [listEvents, hq, hs, scanRows_error, httpError]

/-- C8 (the code at the failing input): on a store with no rows, `listEvents`
answers 200 with the JSON value null as body, which is not the empty array. -/
theorem listEvents_empty_store :
    (memBackend.selectAll []).1.toOption.map (fun rows => rows.items.length) = some 0 ∧
    (listEvents memBackend [] ⟨"GET", [], []⟩).resp.status = 200 ∧
    (listEvents memBackend [] ⟨"GET", [], []⟩).resp.body = Body.json JSON.null ∧
    (listEvents memBackend [] ⟨"GET", [], []⟩).resp.body ≠ Body.json (JSON.arr []) := by
  refine ⟨rfl, rfl, rfl, ?_⟩
  intro h
  have h2 : (listEvents memBackend [] ⟨"GET", [], []⟩).resp.body = Body.json JSON.null := rfl
  rw [h2] at h
  cases h

/-- C9 (the code at the failing input): when the cursor yields the first of two
stored rows and then stops with an error, `listEvents` answers 200 with the one
row read so far, not 500. -/
theorem listEvents_iteration_error :
    (flakyBackend.selectAll [sampleEvent 1 10, sampleEvent 2 50]).1.toOption.map
        (fun rows => rows.err) = some (some (DbError.other "connection reset")) ∧
    (listEvents flakyBackend [sampleEvent 1 10, sampleEvent 2 50] ⟨"GET", [], []⟩).resp.status
      = 200 ∧
    (listEvents flakyBackend [sampleEvent 1 10, sampleEvent 2 50] ⟨"GET", [], []⟩).resp.body
      = Body.json (JSON.arr [eventJSON (sampleEvent 1 10)]) :=
  ⟨rfl, rfl, rfl⟩

/-- C10 (as stated, refuted): with two stored rows that both scan, one of them
in year 10000, `listEvents` answers 200 with nothing as body; with no rows the
body is null, not a sequence; and two stores whose only rows differ in the
title, byte 0xFF against byte 0xFE, are answered with the same body. -/
theorem listEvents_unencodable_row :
    (memBackend.selectAll [sampleEvent 1 10, edgeEvent]).1.toOption.map (fun rows => rows.items)
      = some [Except.ok (sampleEvent 1 10), Except.ok edgeEvent] ∧
    (listEvents memBackend [sampleEvent 1 10, edgeEvent] ⟨"GET", [], []⟩).resp.status = 200 ∧
    (listEvents memBackend [sampleEvent 1 10, edgeEvent] ⟨"GET", [], []⟩).resp.body
      = Body.empty ∧
    (listEvents memBackend [sampleEvent 1 10, edgeEvent] ⟨"GET", [], []⟩).resp.body
      ≠ Body.json (JSON.arr [eventJSON (sampleEvent 1 10), eventJSON edgeEvent]) ∧
    (listEvents memBackend [] ⟨"GET", [], []⟩).resp.body = Body.json JSON.null ∧
    (byteTitleEvent 255) ≠ (byteTitleEvent 254) ∧
    (listEvents memBackend [byteTitleEvent 255] ⟨"GET", [], []⟩).resp.body
      = (listEvents memBackend [byteTitleEvent 254] ⟨"GET", [], []⟩).resp.body := by
  have hb : (listEvents memBackend [sampleEvent 1 10, edgeEvent] ⟨"GET", [], []⟩).resp.body
      = Body.empty := rfl
  refine ⟨rfl, rfl, hb, ?_, rfl, by decide, rfl⟩
  rw [hb]
  intro h
  cases h

/-- C10 (amended): when the query succeeds, yields at least one row, every
yielded row scans and the times of every row can be encoded, `listEvents`
answers 200 with a JSON array whose members are the JSON objects of the yielded
rows, one per row and in the order the store gave them; the object of a row
holds its title and description unchanged when they are UTF-8 text. -/
theorem listEvents_preserves_rows {σ : Type} (B : Backend σ) (s s1 : σ) (r : Request)
    (rows : Rows) (es : List Event)
    (hq : B.selectAll s = (Except.ok rows, s1)) (hs : rows.items = es.map Except.ok)
    (hne : es ≠ []) (henc : ∀ e ∈ es, e.encodable = true) :
    (listEvents B s r).resp.status = 200 ∧
    (listEvents B s r).resp.body = Body.json (JSON.arr (es.map eventJSON)) ∧
    (es.map eventJSON).length = es.length ∧
    (∀ (i : Nat) (h : i < es.length),
      (es.map eventJSON)[i]? = some (eventJSON (es.get ⟨i, h⟩))) ∧
    (∀ row ∈ es, ∀ t d : List Char, row.Title = utf8 t → row.Description = utf8 d →
      eventJSON row = JSON.obj [("id", JSON.uuid row.ID), ("title", JSON.str t),
        ("description", JSON.str d), ("start_time", JSON.time row.StartTime),
        ("end_time", JSON.time row.EndTime), ("created_at", JSON.time row.CreatedAt)]) := by
  have hall : es.all Event.encodable = true := by
    rw [List.all_eq_true]
    exact henc
  have hresp : (listEvents B s r).resp
      = { status := 200, body := Body.json (JSON.arr (es.map eventJSON)) } := by
    simp only [listEvents, hq, hs, scanRows_ok_nil, if_neg hne, marshalEvents, hall, encodeBody]
    rfl
  refine ⟨by rw [hresp], by rw [hresp], by simp, ?_, ?_⟩
  · intro i h
    simp [List.getElem?_map, List.getElem?_eq_getElem h]
  · intro row _ t d ht hdesc
    exact eventJSON_of_utf8 row t d ht hdesc

/-- Witness for C10 (amended) on the store held in memory: rows created in the
order T3, T1, T2 are listed in the order T1, T2, T3. -/
theorem listEvents_preserves_rows_witness :
    (listEvents memBackend [sampleEvent 3 30, sampleEvent 1 10, sampleEvent 2 20]
        ⟨"GET", [], []⟩).resp.body
      = Body.json (JSON.arr [eventJSON (sampleEvent 1 10), eventJSON (sampleEvent 2 20),
          eventJSON (sampleEvent 3 30)]) :=
  (listEvents_preserves_rows memBackend
    [sampleEvent 3 30, sampleEvent 1 10, sampleEvent 2 20]
    [sampleEvent 3 30, sampleEvent 1 10, sampleEvent 2 20] ⟨"GET", [], []⟩
    { items := [Except.ok (sampleEvent 1 10), Except.ok (sampleEvent 2 20),
        Except.ok (sampleEvent 3 30)], err := none }
    [sampleEvent 1 10, sampleEvent 2 20, sampleEvent 3 30]
    (by rfl) (by rfl) (by decide) (by decide)).2.1

end EventsTech
